import Mathlib

/-!
# Session-context persistence of the SMF: `context/db.go`

A shallow embedding of the serialization codec (`MarshalJSON`, `UnmarshalJSON`,
`SeidConv`), of the identifier index and of the context store, in both backend
modes (document database, and cache when `EnableScaling` is set).

Conventions of the embedding.

* A Go `string` is a Lean `String`; `uint64` values are natural numbers below `2 ^ 64`.
* A Go `map` is a `GoMap`: a list of entries together with `get`, `set` and `del`.
  A `range` loop over a map is a left fold over its entries; the statements about
  loops hold for every order of the entries.
* `encoding/json` is outside the package. `json.Marshal` of a value is modelled as the
  structural record it serialises and `json.Unmarshal` as reading that record back.
* The pointers held by the maps of a session context (`*PFCPSessionContext`, `*DataPath`)
  are not nil, so the values are stored directly.
* Log statements have no effect on the state and are left out.
-/

namespace Smf

/-! ## Go maps -/

/-- A Go map, as the list of its entries. -/
structure GoMap (K V : Type) where
  entries : List (K × V)

namespace GoMap

variable {K V : Type}

/-- The map `make(map[K]V)`. -/
def empty : GoMap K V := ⟨[]⟩

/-- Lookup in a list of entries: the first entry stored under the key. -/
def find [DecidableEq K] : List (K × V) → K → Option V
  | [], _ => none
  | (k1, v) :: rest, k => if k1 = k then some v else find rest k

/-- The value of `m[k]`, with `none` for an absent key. -/
def get [DecidableEq K] (m : GoMap K V) (k : K) : Option V := find m.entries k

/-- The map after `delete(m, k)`. -/
def del [DecidableEq K] (m : GoMap K V) (k : K) : GoMap K V :=
  ⟨m.entries.filter (fun e => !decide (e.1 = k))⟩

/-- The map after `m[k] = v`. -/
def set [DecidableEq K] (m : GoMap K V) (k : K) (v : V) : GoMap K V :=
  ⟨(k, v) :: (m.del k).entries⟩

/-- The keys of the entries, in list order. -/
def keys (m : GoMap K V) : List K := m.entries.map Prod.fst

/-- A list of entries is a map when no key occurs twice. -/
def WF (m : GoMap K V) : Prop := m.keys.Nodup

instance [DecidableEq K] (m : GoMap K V) : Decidable m.WF := by
  unfold WF; exact inferInstance

end GoMap

/-! ## `strconv.FormatUint(_, 16)` and `strconv.ParseUint(_, 16, 64)` -/

/-- The digit table of `strconv`. -/
def digits : List Char := "0123456789abcdefghijklmnopqrstuvwxyz".data

/-- The character `digits[d]`. -/
def digitChar (d : Nat) : Char := digits.getD d '0'

/-- The power-of-two loop of `strconv.formatBits` for base 16: while `u >= 16` the digit
`u & 15` is written in front of the output and `u` is shifted right by 4; the last digit
is `u` itself. The first argument is the room left in the buffer `a [64 + 1]byte`. -/
def formatBits : Nat → Nat → List Char → List Char
  | 0, _, acc => acc
  | i + 1, u, acc =>
    if 16 ≤ u then formatBits i (u >>> 4) (digitChar (u &&& 15) :: acc)
    else digitChar u :: acc

/-- The function `strconv.FormatUint(i, 16)`. -/
def FormatUint (i : Nat) : String := String.mk (formatBits 65 i [])

/-- The function `SeidConv`. -/
def SeidConv (seid : Nat) : String := FormatUint seid

/-- The two errors of `strconv.ParseUint` on a base in range. -/
inductive NumError where
  | ErrSyntax
  | ErrRange
  deriving DecidableEq, Repr

/-- The function `lower` of `strconv`: `c | ('x' - 'X')`. -/
def lower (c : Nat) : Nat := c ||| 0x20

/-- The digit value of a character in `ParseUint`, `none` where the `switch` takes its
default branch. A character outside ASCII stands for bytes of `0x80` and above, which all
take the default branch. -/
def digitVal (c : Char) : Option Nat :=
  if 48 ≤ c.toNat ∧ c.toNat ≤ 57 then some (c.toNat - 48)
  else if 97 ≤ lower c.toNat ∧ lower c.toNat ≤ 122 then some (lower c.toNat - 97 + 10)
  else none

/-- The constant `maxUint64`, also `maxVal` for `bitSize = 64`. -/
def maxUint64 : Nat := 2 ^ 64 - 1

/-- The digit loop of `strconv.ParseUint(s, 16, 64)`; `cutoff` is `maxUint64/16 + 1` and
the products and sums are those of `uint64`. -/
def parseLoop : List Char → Nat → Nat × Option NumError
  | [], n => (n, none)
  | c :: cs, n =>
    match digitVal c with
    | none => (0, some NumError.ErrSyntax)
    | some d =>
      if 16 ≤ d then (0, some NumError.ErrSyntax)
      else if maxUint64 / 16 + 1 ≤ n then (maxUint64, some NumError.ErrRange)
      else
        let n16 := (n * 16) % 2 ^ 64
        let n1 := (n16 + d) % 2 ^ 64
        if n1 < n16 ∨ maxUint64 < n1 then (maxUint64, some NumError.ErrRange)
        else parseLoop cs n1

/-- The call `strconv.ParseUint(s, 16, 64)`: the value and the error, `none` for `nil`. -/
def ParseUint (s : String) : Nat × Option NumError :=
  if s = "" then (0, some NumError.ErrSyntax) else parseLoop s.data 0

/-! ## Data model -/

/-- The types of the package that are declared outside `db.go`, which only moves their
values around, with their zero values. -/
structure Schema where
  NodeID : Type
  PDRs : Type
  Destination : Type
  ANInformation : Type
  DataPathNode : Type
  DataPathNodeInDB : Type
  Alias : Type
  zeroNodeID : NodeID
  zeroPDRs : PDRs
  zeroANInformation : ANInformation
  zeroAlias : Alias
  decANInformation : DecidableEq ANInformation

/-- The errors that reach the functions of `db.go`. -/
inductive GoError where
  | redisNil
  | backend (msg : String)
  | num (e : NumError)
  | json (msg : String)
  deriving DecidableEq, Repr

/-- The generator made by `idgenerator.NewGenerator(minValue, maxValue)`. -/
structure IDGenerator where
  minValue : Int
  maxValue : Int
  deriving DecidableEq, Repr

/-- Modelled from the spec: the type `PFCPSessionContext` is declared outside `db.go`;
its fields are NodeID, the packet-detection rules, LocalSEID and RemoteSEID. -/
structure PFCPSessionContext (S : Schema) where
  PDRs : S.PDRs
  NodeID : S.NodeID
  LocalSEID : Nat
  RemoteSEID : Nat

/-- Modelled from the spec: the stored form of `PFCPSessionContext`, with both SEIDs as
base-16 strings. -/
structure PFCPSessionContextInDB (S : Schema) where
  PDRs : S.PDRs
  NodeID : S.NodeID
  LocalSEID : String
  RemoteSEID : String

/-- Modelled from the spec: the type `DataPath`, declared outside `db.go`. -/
structure DataPath (S : Schema) where
  Activated : Bool
  IsDefaultPath : Bool
  Destination : S.Destination
  HasBranchingPoint : Bool
  FirstDPNode : S.DataPathNode

/-- Modelled from the spec: the stored form of `DataPath`. -/
structure DataPathInDB (S : Schema) where
  Activated : Bool
  IsDefaultPath : Bool
  Destination : S.Destination
  HasBranchingPoint : Bool
  FirstDPNode : S.DataPathNodeInDB

/-- Modelled from the spec: the type `UPTunnel`, with the fields `db.go` assigns. A nil
`DataPathPool` is `none`. -/
structure UPTunnel (S : Schema) where
  PathIDGenerator : Option IDGenerator
  DataPathPool : Option (GoMap Int (DataPath S))
  ANInformation : S.ANInformation

/-- Modelled from the spec: the stored form of `UPTunnel`, with the fields `db.go`
assigns. -/
structure UPTunnelInDB (S : Schema) where
  DataPathPool : Option (GoMap Int (DataPathInDB S))
  ANInformation : S.ANInformation

/-- Modelled from the spec: the type `SMContext`. `Alias` holds the fields that
`encoding/json` handles by itself; a nil `Tunnel` is `none`. -/
structure SMContext (S : Schema) where
  Ref : String
  Alias : S.Alias
  PFCPContext : GoMap String (PFCPSessionContext S)
  Tunnel : Option (UPTunnel S)

/-- The anonymous struct that `MarshalJSON` hands to `json.Marshal` and that
`UnmarshalJSON` reads with `json.Unmarshal`. -/
structure SMContextInDB (S : Schema) where
  Ref : String
  Alias : S.Alias
  PFCPContext : GoMap String (PFCPSessionContextInDB S)
  Tunnel : UPTunnelInDB S

/-- The type `SeidSmContextRef`. -/
structure SeidSmContextRef where
  Ref : String
  Seid : String
  deriving DecidableEq, Repr

/-- The zero value `PFCPSessionContextInDB{}`. -/
def PFCPSessionContextInDB.zero (S : Schema) : PFCPSessionContextInDB S :=
  { PDRs := S.zeroPDRs, NodeID := S.zeroNodeID, LocalSEID := "", RemoteSEID := "" }

/-- The zero value `PFCPSessionContext{}`. -/
def PFCPSessionContext.zero (S : Schema) : PFCPSessionContext S :=
  { PDRs := S.zeroPDRs, NodeID := S.zeroNodeID, LocalSEID := 0, RemoteSEID := 0 }

/-- The zero value `UPTunnelInDB{}`. -/
def UPTunnelInDB.zero (S : Schema) : UPTunnelInDB S :=
  { DataPathPool := none, ANInformation := S.zeroANInformation }

/-- The zero value `UPTunnel{}`. -/
def UPTunnel.zero (S : Schema) : UPTunnel S :=
  { PathIDGenerator := none, DataPathPool := none, ANInformation := S.zeroANInformation }

/-- The test `reflect.DeepEqual(t, UPTunnelInDB{})`: a nil pool and zero ANInformation. -/
def UPTunnelInDB.isZero {S : Schema} (t : UPTunnelInDB S) : Bool :=
  t.DataPathPool.isNone && @decide (t.ANInformation = S.zeroANInformation)
    (S.decANInformation _ _)

/-- Modelled from the spec: the constructor `NewDataPathPool` is declared outside `db.go`;
decode rebuilds the pool from the stored paths alone, so the fresh pool has no entries. -/
def NewDataPathPool (S : Schema) : GoMap Int (DataPath S) := GoMap.empty

/-! ## The codec: `MarshalJSON` and `UnmarshalJSON` -/

/-- One iteration of the loop of `MarshalJSON` over `smContext.PFCPContext`: the four
fields of the scratch record `pfcpSessionContextInDB` are overwritten and the record is
copied into `PFCPContextVal[key]`. The state is the scratch record and the output map. -/
def marshalPFCPStep {S : Schema}
    (st : PFCPSessionContextInDB S × GoMap String (PFCPSessionContextInDB S))
    (kv : String × PFCPSessionContext S) :
    PFCPSessionContextInDB S × GoMap String (PFCPSessionContextInDB S) :=
  let s1 := { st.1 with NodeID := kv.2.NodeID }
  let s2 := { s1 with PDRs := kv.2.PDRs }
  let s3 := { s2 with LocalSEID := SeidConv kv.2.LocalSEID }
  let s4 := { s3 with RemoteSEID := SeidConv kv.2.RemoteSEID }
  (s4, st.2.set kv.1 s4)

/-- One iteration of the loop of `MarshalJSON` over `smContext.Tunnel.DataPathPool`. -/
def marshalPathStep {S : Schema} (StoreDataPathNode : S.DataPathNode → S.DataPathNodeInDB)
    (dataPathPoolInDBVal : GoMap Int (DataPathInDB S)) (kv : Int × DataPath S) :
    GoMap Int (DataPathInDB S) :=
  let dataPath := kv.2
  let dataPathNodeInDBVal := StoreDataPathNode dataPath.FirstDPNode
  let newDataPathInDB : DataPathInDB S :=
    { Activated := dataPath.Activated
      IsDefaultPath := dataPath.IsDefaultPath
      Destination := dataPath.Destination
      HasBranchingPoint := dataPath.HasBranchingPoint
      FirstDPNode := dataPathNodeInDBVal }
  dataPathPoolInDBVal.set kv.1 newDataPathInDB

/-- The method `MarshalJSON` of `SMContext`; `StoreDataPathNode` is declared outside
`db.go`. The result is the struct handed to `json.Marshal`. -/
def MarshalJSON {S : Schema} (StoreDataPathNode : S.DataPathNode → S.DataPathNodeInDB)
    (smContext : SMContext S) : SMContextInDB S :=
  let dataPathPoolInDBVal : GoMap Int (DataPathInDB S) := GoMap.empty
  let upTunnelVal : UPTunnelInDB S :=
    match smContext.Tunnel with
    | none => UPTunnelInDB.zero S
    | some tunnel =>
      let up0 := UPTunnelInDB.zero S
      let up := { up0 with ANInformation := tunnel.ANInformation }
      match tunnel.DataPathPool with
      | none => up
      | some pool =>
        let filled := pool.entries.foldl (marshalPathStep StoreDataPathNode) dataPathPoolInDBVal
        { up with DataPathPool := some filled }
  let PFCPContextVal :=
    (smContext.PFCPContext.entries.foldl marshalPFCPStep
      (PFCPSessionContextInDB.zero S, GoMap.empty)).2
  { Ref := smContext.Ref
    Alias := smContext.Alias
    PFCPContext := PFCPContextVal
    Tunnel := upTunnelVal }

/-- One iteration of the loop of `UnmarshalJSON` over `aux.PFCPContextVal`: a fresh entry
is stored under the key and its fields are assigned; the value returned by `ParseUint` is
stored whether or not `ParseUint` returned an error, which is only logged. -/
def unmarshalPFCPStep {S : Schema} (PFCPContext : GoMap String (PFCPSessionContext S))
    (kv : String × PFCPSessionContextInDB S) : GoMap String (PFCPSessionContext S) :=
  let e0 := PFCPSessionContext.zero S
  let e1 := { e0 with NodeID := kv.2.NodeID }
  let e2 := { e1 with PDRs := kv.2.PDRs }
  let localSeid := (ParseUint kv.2.LocalSEID).1
  let e3 := { e2 with LocalSEID := localSeid }
  let remoteSeid := (ParseUint kv.2.RemoteSEID).1
  let e4 := { e3 with RemoteSEID := remoteSeid }
  PFCPContext.set kv.1 e4

/-- One iteration of the loop of `UnmarshalJSON` over `aux.Tunnel.DataPathPool`;
`NewDataPath` is the value of the constructor of that name. -/
def unmarshalPathStep {S : Schema}
    (RecoverDataPathNode : S.DataPathNodeInDB → S.DataPathNode) (NewDataPath : DataPath S)
    (DataPathPool : GoMap Int (DataPath S)) (kv : Int × DataPathInDB S) :
    GoMap Int (DataPath S) :=
  let dataPathInDB := kv.2
  let dataPathNodeVal := RecoverDataPathNode dataPathInDB.FirstDPNode
  let p1 := { NewDataPath with Activated := dataPathInDB.Activated }
  let p2 := { p1 with IsDefaultPath := dataPathInDB.IsDefaultPath }
  let p3 := { p2 with Destination := dataPathInDB.Destination }
  let p4 := { p3 with HasBranchingPoint := dataPathInDB.HasBranchingPoint }
  let p5 := { p4 with FirstDPNode := dataPathNodeVal }
  DataPathPool.set kv.1 p5

/-- The method `UnmarshalJSON` of `SMContext`. The argument is what
`json.Unmarshal(data, &aux)` makes of the stored bytes: an error, or the record `aux`.
`RecoverDataPathNode` and `NewDataPath` are declared outside `db.go`. The result is the
returned error, or the receiver after a return of nil. -/
def UnmarshalJSON {S : Schema}
    (RecoverDataPathNode : S.DataPathNodeInDB → S.DataPathNode) (NewDataPath : DataPath S)
    (data : Except GoError (SMContextInDB S)) : Except GoError (SMContext S) :=
  match data with
  | Except.error err => Except.error err
  | Except.ok aux =>
    let PFCPContext := aux.PFCPContext.entries.foldl unmarshalPFCPStep GoMap.empty
    let tunnel0 := UPTunnel.zero S
    let tunnel :=
      if aux.Tunnel.isZero then tunnel0
      else
        let t1 := { tunnel0 with ANInformation := aux.Tunnel.ANInformation }
        let t2 := { t1 with PathIDGenerator := some (IDGenerator.mk 1 2147483647) }
        let pool := match aux.Tunnel.DataPathPool with
          | none => []
          | some m => m.entries
        let filled :=
          pool.foldl (unmarshalPathStep RecoverDataPathNode NewDataPath) (NewDataPathPool S)
        { t2 with DataPathPool := some filled }
    Except.ok
      { Ref := aux.Ref
        Alias := aux.Alias
        PFCPContext := PFCPContext
        Tunnel := some tunnel }

/-! ## Backends -/

/-- A value held by the cache: the JSON text of an index record (written by
`ProcessSeidSmContextDbChannel`) or of a session context (written by
`ProcessSmContextDbChannel`). These are the only values `db.go` writes; both are
non-empty JSON objects, which `json.Unmarshal` accepts for either target type. -/
inductive RedisValue (S : Schema) where
  | seidRef (item : SeidSmContextRef)
  | smContext (doc : SMContextInDB S)

/-- What `json.Unmarshal` into a `SeidSmContextRef` reads from a cache value: of the JSON
of a session context only the key `ref` is known to the target, `seid` keeps its zero
value. -/
def RedisValue.toSeidSmContextRef {S : Schema} : RedisValue S → SeidSmContextRef
  | RedisValue.seidRef item => item
  | RedisValue.smContext doc => { Ref := doc.Ref, Seid := "" }

/-- What `json.Unmarshal(_, &aux)` in `UnmarshalJSON` reads from a cache value: of the
JSON of an index record only the key `ref` is known to the target, the other fields keep
their zero values. -/
def RedisValue.toSMContextInDB {S : Schema} : RedisValue S → SMContextInDB S
  | RedisValue.seidRef item =>
    { Ref := item.Ref, Alias := S.zeroAlias, PFCPContext := GoMap.empty,
      Tunnel := UPTunnelInDB.zero S }
  | RedisValue.smContext doc => doc

/-- The cache behind `SMF_Self().RedisClient`: a string-keyed map; when `fault` is set
every command fails with that error. -/
structure RedisDB (S : Schema) where
  data : GoMap String (RedisValue S)
  fault : Option String

/-- The command `Get(key).Result()`: an absent key gives the error `redis.Nil`. -/
def RedisDB.Get {S : Schema} (c : RedisDB S) (key : String) : Except GoError (RedisValue S) :=
  match c.fault with
  | some msg => Except.error (GoError.backend msg)
  | none =>
    match c.data.get key with
    | none => Except.error GoError.redisNil
    | some v => Except.ok v

/-- The command `Set(key, value, 0)`; its error is only logged by the callers. -/
def RedisDB.Set {S : Schema} (c : RedisDB S) (key : String) (value : RedisValue S) :
    RedisDB S :=
  match c.fault with
  | some _ => c
  | none => { c with data := c.data.set key value }

/-- The command `Del(key)`; its error is only logged by the callers. -/
def RedisDB.Del {S : Schema} (c : RedisDB S) (key : String) : RedisDB S :=
  match c.fault with
  | some _ => c
  | none => { c with data := c.data.del key }

/-- The database behind `mongoapi.CommonDBClient`: one map per collection, keyed by the
field the filters of `db.go` select on (`ref` for `SmContextDataColl` and `RefSeidCol`,
`seid` for `SeidSmContextCol`); when `fault` is set every call fails with that error. -/
structure MongoDB (S : Schema) where
  SmContextDataColl : GoMap String (SMContextInDB S)
  SeidSmContextCol : GoMap String SeidSmContextRef
  RefSeidCol : GoMap String SeidSmContextRef
  fault : Option String

/-- The call `RestfulAPIGetOne(coll, filter)`: the document and the error; no document
matching the filter gives `(nil, nil)`. -/
def RestfulAPIGetOne {D : Type} (fault : Option String) (coll : GoMap String D)
    (key : String) : Option D × Option GoError :=
  match fault with
  | some msg => (none, some (GoError.backend msg))
  | none => (coll.get key, none)

/-- The call `RestfulAPIPost(coll, filter, doc)`, an upsert; its error is only logged. -/
def RestfulAPIPost {D : Type} (fault : Option String) (coll : GoMap String D)
    (key : String) (doc : D) : GoMap String D :=
  match fault with
  | some _ => coll
  | none => coll.set key doc

/-- The call `RestfulAPIDeleteOne(coll, filter)`; its error is only logged. -/
def RestfulAPIDeleteOne {D : Type} (fault : Option String) (coll : GoMap String D)
    (key : String) : GoMap String D :=
  match fault with
  | some _ => coll
  | none => coll.del key

/-- The state the functions of `db.go` act on: the flag `SMF_Self().EnableScaling`, the
cache and the database. -/
structure Backend (S : Schema) where
  EnableScaling : Bool
  RedisClient : RedisDB S
  CommonDBClient : MongoDB S

/-- A backend without entries and without fault. -/
def emptyBackend (S : Schema) (scaling : Bool) : Backend S :=
  { EnableScaling := scaling
    RedisClient := { data := GoMap.empty, fault := none }
    CommonDBClient :=
      { SmContextDataColl := GoMap.empty, SeidSmContextCol := GoMap.empty,
        RefSeidCol := GoMap.empty, fault := none } }

/-- The function `StoreSmContextInDB`. -/
def StoreSmContextInDB {S : Schema} (StoreDataPathNode : S.DataPathNode → S.DataPathNodeInDB)
    (b : Backend S) (smContext : SMContext S) : Backend S :=
  let smContextBsonA := MarshalJSON StoreDataPathNode smContext
  let db := b.CommonDBClient
  { b with CommonDBClient :=
      { db with SmContextDataColl :=
          RestfulAPIPost db.fault db.SmContextDataColl smContext.Ref smContextBsonA } }

/-- The function `StoreSeidContextInDB`. -/
def StoreSeidContextInDB {S : Schema} (b : Backend S) (seidUint : Nat)
    (smContext : SMContext S) : Backend S :=
  let seid := SeidConv seidUint
  let item : SeidSmContextRef := { Ref := smContext.Ref, Seid := seid }
  let db := b.CommonDBClient
  { b with CommonDBClient :=
      { db with SeidSmContextCol := RestfulAPIPost db.fault db.SeidSmContextCol seid item } }

/-- The function `StoreRefToSeidInDB`. -/
def StoreRefToSeidInDB {S : Schema} (b : Backend S) (seidUint : Nat)
    (smContext : SMContext S) : Backend S :=
  let seid := SeidConv seidUint
  let item : SeidSmContextRef := { Ref := smContext.Ref, Seid := seid }
  let db := b.CommonDBClient
  { b with CommonDBClient :=
      { db with RefSeidCol := RestfulAPIPost db.fault db.RefSeidCol smContext.Ref item } }

/-- How a call of `GetSeidByRefInDB` ends: it returns `(seid, err)`, or it panics. -/
inductive SeidResult where
  | returned (seid : Nat) (err : Option GoError)
  | panicked
  deriving DecidableEq, Repr

/-- The function `GetSeidByRefInDB`. In the database branch the statement after a failed
lookup is `return 0, err` with `err` the named result, still nil there; with no document
the type assertion `result["seid"].(string)` on the nil map panics. -/
def GetSeidByRefInDB {S : Schema} (b : Backend S) (ref : String) : SeidResult :=
  if b.EnableScaling then
    match b.RedisClient.Get ref with
    | Except.error getOneErr => SeidResult.returned 0 (some getOneErr)
    | Except.ok result =>
      let resultJson := result.toSeidSmContextRef
      let seidStr := resultJson.Seid
      match ParseUint seidStr with
      | (_, some err) => SeidResult.returned 0 (some (GoError.num err))
      | (seid, none) => SeidResult.returned seid none
  else
    match RestfulAPIGetOne b.CommonDBClient.fault b.CommonDBClient.RefSeidCol ref with
    | (_, some _) => SeidResult.returned 0 none
    | (none, none) => SeidResult.panicked
    | (some result, none) =>
      let seidStr := result.Seid
      match ParseUint seidStr with
      | (seid, err) => SeidResult.returned seid (err.map GoError.num)

/-- The function `GetSMContextByRefInDB`; `none` is the nil result. -/
def GetSMContextByRefInDB {S : Schema}
    (RecoverDataPathNode : S.DataPathNodeInDB → S.DataPathNode) (NewDataPath : DataPath S)
    (b : Backend S) (ref : String) : Option (SMContext S) :=
  if b.EnableScaling then
    match b.RedisClient.Get ref with
    | Except.error _ => none
    | Except.ok result =>
      match UnmarshalJSON RecoverDataPathNode NewDataPath
          (Except.ok result.toSMContextInDB) with
      | Except.error _ => none
      | Except.ok smContext => some smContext
  else
    match RestfulAPIGetOne b.CommonDBClient.fault b.CommonDBClient.SmContextDataColl ref with
    | (some result, _) =>
      match UnmarshalJSON RecoverDataPathNode NewDataPath (Except.ok result) with
      | Except.error _ => none
      | Except.ok smContext => some smContext
    | (none, _) => none

/-- The function `GetSMContextBySEIDInDB`; `GetSMContext`, the lookup in the local pool,
is declared outside `db.go`. -/
def GetSMContextBySEIDInDB {S : Schema} {C : Type} (GetSMContext : String → Option C)
    (b : Backend S) (seidUint : Nat) : Option C :=
  let seid := SeidConv seidUint
  if b.EnableScaling then
    match b.RedisClient.Get seid with
    | Except.error _ => none
    | Except.ok result =>
      let resultJson := result.toSeidSmContextRef
      let ref := resultJson.Ref
      GetSMContext ref
  else
    match RestfulAPIGetOne b.CommonDBClient.fault b.CommonDBClient.SeidSmContextCol seid with
    | (some result, _) =>
      let ref := result.Ref
      GetSMContext ref
    | (none, _) => none

/-- The function `DeleteSmContextInDBByRef`. -/
def DeleteSmContextInDBByRef {S : Schema} (b : Backend S) (ref : String) : Backend S :=
  if b.EnableScaling then
    { b with RedisClient := b.RedisClient.Del ref }
  else
    let db := b.CommonDBClient
    { b with CommonDBClient :=
        { db with SmContextDataColl := RestfulAPIDeleteOne db.fault db.SmContextDataColl ref } }

/-- The function `DeleteSmContextInDBBySEID`. -/
def DeleteSmContextInDBBySEID {S : Schema} (b : Backend S) (seidUint : Nat) : Backend S :=
  let seid := SeidConv seidUint
  if b.EnableScaling then
    match b.RedisClient.Get seid with
    | Except.error _ => b
    | Except.ok result =>
      let resultJson := result.toSeidSmContextRef
      let ref := resultJson.Ref
      let b1 := { b with RedisClient := b.RedisClient.Del seid }
      DeleteSmContextInDBByRef b1 ref
  else
    let db := b.CommonDBClient
    match RestfulAPIGetOne db.fault db.SeidSmContextCol seid with
    | (some result, _) =>
      let ref := result.Ref
      let b1 := { b with CommonDBClient :=
        { db with SeidSmContextCol := RestfulAPIDeleteOne db.fault db.SeidSmContextCol seid } }
      DeleteSmContextInDBByRef b1 ref
    | (none, _) => b

/-- One iteration of `ProcessSmContextDbChannel`, on the received context. -/
def ProcessSmContextDbChannel {S : Schema}
    (StoreDataPathNode : S.DataPathNode → S.DataPathNodeInDB) (b : Backend S)
    (rcvdSmContext : SMContext S) : Backend S :=
  let smContextJson := RedisValue.smContext (MarshalJSON StoreDataPathNode rcvdSmContext)
  { b with RedisClient := b.RedisClient.Set rcvdSmContext.Ref smContextJson }

/-- One iteration of `ProcessSeidSmContextDbChannel`, on the received item. -/
def ProcessSeidSmContextDbChannel {S : Schema} (b : Backend S) (item : SeidSmContextRef) :
    Backend S :=
  let itemJson : RedisValue S := RedisValue.seidRef item
  let c1 := b.RedisClient.Set item.Seid itemJson
  let c2 := c1.Set item.Ref itemJson
  { b with RedisClient := c2 }

/-- One iteration of `ProcessDeleteSmContextSeidChannel`. -/
def ProcessDeleteSmContextSeidChannel {S : Schema} (b : Backend S) (seid : Nat) : Backend S :=
  DeleteSmContextInDBBySEID b seid

/-- One iteration of `ProcessDeleteSmContextRefChannel`. -/
def ProcessDeleteSmContextRefChannel {S : Schema} (b : Backend S) (ref : String) : Backend S :=
  DeleteSmContextInDBByRef b ref

/-! ## Observations on a backend -/

/-- Whether a record is stored under the reference in the context store: the key `ref`
of the cache in scaled mode, the document of `SmContextDataColl` otherwise. -/
def Backend.hasContextRecord {S : Schema} (b : Backend S) (ref : String) : Bool :=
  if b.EnableScaling then (b.RedisClient.data.get ref).isSome
  else (b.CommonDBClient.SmContextDataColl.get ref).isSome

/-- Whether the by-SEID direction of the index holds an entry under the SEID. -/
def Backend.hasSeidEntry {S : Schema} (b : Backend S) (seidUint : Nat) : Bool :=
  if b.EnableScaling then (b.RedisClient.data.get (SeidConv seidUint)).isSome
  else (b.CommonDBClient.SeidSmContextCol.get (SeidConv seidUint)).isSome

/-- Whether the by-reference direction of the index, the one `GetSeidByRefInDB` reads,
holds an entry under the reference. -/
def Backend.hasRefEntry {S : Schema} (b : Backend S) (ref : String) : Bool :=
  if b.EnableScaling then (b.RedisClient.data.get ref).isSome
  else (b.CommonDBClient.RefSeidCol.get ref).isSome

/-- Whether a string is the base-16 form `SeidConv s` of an unsigned 64-bit value. -/
def isSeidKey (key : String) : Bool :=
  decide ((ParseUint key).2 = none ∧ SeidConv (ParseUint key).1 = key)

/-! ## Sequences of index operations -/

/-- An operation on the identifier index: the index write for a SEID and a context, or
one of the two deletes. -/
inductive IndexOp (S : Schema) where
  | write (seidUint : Nat) (smContext : SMContext S)
  | deleteBySEID (seidUint : Nat)
  | deleteByRef (ref : String)

/-- The effect of an operation: the index write is `StoreSeidContextInDB` followed by
`StoreRefToSeidInDB` in local mode and one iteration of `ProcessSeidSmContextDbChannel`
in scaled mode. -/
def IndexOp.apply {S : Schema} (b : Backend S) : IndexOp S → Backend S
  | IndexOp.write seidUint smContext =>
    if b.EnableScaling then
      ProcessSeidSmContextDbChannel b { Ref := smContext.Ref, Seid := SeidConv seidUint }
    else
      StoreRefToSeidInDB (StoreSeidContextInDB b seidUint smContext) seidUint smContext
  | IndexOp.deleteBySEID seidUint => DeleteSmContextInDBBySEID b seidUint
  | IndexOp.deleteByRef ref => DeleteSmContextInDBByRef b ref

/-- The backend after a sequence of operations. -/
def runOps {S : Schema} (b : Backend S) : List (IndexOp S) → Backend S
  | [] => b
  | op :: ops => runOps (op.apply b) ops

/-- The operations under which the two directions of the index stay consistent: an index
write of an unsigned 64-bit SEID and a reference that both have no entry yet (in scaled
mode the reference is moreover not the base-16 form of a SEID), `DeleteSmContextInDBBySEID`
in scaled mode and `DeleteSmContextInDBByRef` in local mode. -/
def IndexOp.fresh {S : Schema} (b : Backend S) : IndexOp S → Bool
  | IndexOp.write seidUint smContext =>
    decide (seidUint < 2 ^ 64) && !b.hasSeidEntry seidUint && !b.hasRefEntry smContext.Ref
      && (!b.EnableScaling || !isSeidKey smContext.Ref)
  | IndexOp.deleteBySEID seidUint => b.EnableScaling && decide (seidUint < 2 ^ 64)
  | IndexOp.deleteByRef _ => !b.EnableScaling

/-- Every operation of the sequence is `fresh` in the state it is applied to. -/
def freshOps {S : Schema} (b : Backend S) : List (IndexOp S) → Bool
  | [] => true
  | op :: ops => op.fresh b && freshOps (op.apply b) ops

/-- Consistency of the two index collections of the database: every entry is stored
under its own key in both collections, and the SEID keys are base-16 forms of unsigned
64-bit values. -/
def IndexInvLocal {S : Schema} (m : MongoDB S) : Prop :=
  m.fault = none ∧
  (∀ k doc, m.SeidSmContextCol.get k = some doc →
    doc.Seid = k ∧ isSeidKey k = true ∧ m.RefSeidCol.get doc.Ref = some doc) ∧
  (∀ r doc, m.RefSeidCol.get r = some doc →
    doc.Ref = r ∧ m.SeidSmContextCol.get doc.Seid = some doc)

/-- Consistency of the index records of the cache: every value is an index record stored
under both its SEID and its reference, the SEID is the base-16 form of an unsigned 64-bit
value and the reference is not. -/
def IndexInvScaled {S : Schema} (c : RedisDB S) : Prop :=
  c.fault = none ∧
  ∀ k v, c.data.get k = some v →
    ∃ item, v = RedisValue.seidRef item ∧ (k = item.Seid ∨ k = item.Ref) ∧
      isSeidKey item.Seid = true ∧ isSeidKey item.Ref = false ∧
      c.data.get item.Seid = some v ∧ c.data.get item.Ref = some v

/-- Consistency of the index of the active backend. -/
def IndexInv {S : Schema} (b : Backend S) : Prop :=
  if b.EnableScaling then IndexInvScaled b.RedisClient else IndexInvLocal b.CommonDBClient

/-! ## Concrete values -/

/-- A schema in which a data-path node is the list of the node names of its chain. -/
@[reducible] def sampleSchema : Schema :=
  { NodeID := String, PDRs := List Nat, Destination := String, ANInformation := Nat,
    DataPathNode := List String, DataPathNodeInDB := List String, Alias := Nat,
    zeroNodeID := "", zeroPDRs := [], zeroANInformation := 0, zeroAlias := 0,
    decANInformation := inferInstance }

/-- The value `NewDataPath()` of the sample schema. -/
def sampleNewDataPath : DataPath sampleSchema :=
  { Activated := false, IsDefaultPath := false, Destination := "", HasBranchingPoint := false,
    FirstDPNode := [] }

/-- Two PFCP session contexts, with SEIDs at the extremes `0` and `2 ^ 64 - 1`. -/
def samplePFCPContext : GoMap String (PFCPSessionContext sampleSchema) :=
  ⟨[("upf-a", PFCPSessionContext.mk [1, 2] "10.0.0.1" 0 (2 ^ 64 - 1)),
    ("upf-b", PFCPSessionContext.mk [] "10.0.0.2" (2 ^ 64 - 1) 6699)]⟩

/-- Two data paths, the first one with a chain of three nodes and a branching point. -/
def sampleDataPathPool : GoMap Int (DataPath sampleSchema) :=
  ⟨[(1, DataPath.mk true true "internet" true ["an", "i-upf", "psa-upf"]),
    (2, DataPath.mk false false "ims" false ["an"])]⟩

/-- A session context with two PFCP session contexts and a tunnel of two data paths. -/
def sampleContext : SMContext sampleSchema :=
  { Ref := "ref-1", Alias := 7, PFCPContext := samplePFCPContext,
    Tunnel := some (UPTunnel.mk (some (IDGenerator.mk 1 2147483647)) (some sampleDataPathPool) 5) }

/-- A session context whose tunnel was never established. -/
def sampleContextNoTunnel : SMContext sampleSchema :=
  { Ref := "ref-2", Alias := 0, PFCPContext := GoMap.empty, Tunnel := none }

/-- A stored record whose LocalSEID has characters outside base 16 and whose RemoteSEID
is `2 ^ 64` in base 16. -/
def sampleBadRecord : SMContextInDB sampleSchema :=
  { Ref := "ref-3", Alias := 0,
    PFCPContext := ⟨[("upf-a", PFCPSessionContextInDB.mk [] "10.0.0.1" "zz" "10000000000000000")]⟩,
    Tunnel := UPTunnelInDB.zero sampleSchema }

/-- A database that fails every call, in local mode. -/
def sampleFailingBackend : Backend sampleSchema :=
  { EnableScaling := false
    RedisClient := { data := GoMap.empty, fault := none }
    CommonDBClient :=
      { SmContextDataColl := GoMap.empty, SeidSmContextCol := GoMap.empty,
        RefSeidCol := GoMap.empty, fault := some "connection refused" } }

/-- A session context with reference `a`. -/
def sampleContextA : SMContext sampleSchema :=
  { Ref := "ref-a", Alias := 0, PFCPContext := GoMap.empty, Tunnel := none }

/-- A session context with reference `b`. -/
def sampleContextB : SMContext sampleSchema :=
  { Ref := "ref-b", Alias := 0, PFCPContext := GoMap.empty, Tunnel := none }

/-- The local-mode backend after the context `sampleContext` was stored and its index
pair for SEID `0x1a2b` was written. -/
def sampleStoredLocal : Backend sampleSchema :=
  StoreRefToSeidInDB
    (StoreSeidContextInDB (StoreSmContextInDB id (emptyBackend sampleSchema false) sampleContext)
      6699 sampleContext)
    6699 sampleContext

/-- The scaled-mode backend after the index pair of `sampleContext` for SEID `0x1a2b` was
written by the index worker. -/
def sampleStoredScaled : Backend sampleSchema :=
  ProcessSeidSmContextDbChannel (emptyBackend sampleSchema true)
    { Ref := "ref-1", Seid := SeidConv 6699 }

/-- A session context whose reference `ff` is also the base-16 form of the SEID 255. -/
def sampleContextHex : SMContext sampleSchema :=
  { Ref := "ff", Alias := 0, PFCPContext := GoMap.empty, Tunnel := none }

/-- Local mode: two index writes of fresh pairs, then a delete by reference. -/
def sampleOpsLocal : List (IndexOp sampleSchema) :=
  [IndexOp.write 6699 sampleContextA, IndexOp.write 5 sampleContextB,
    IndexOp.deleteByRef "ref-a"]

/-- Scaled mode: an index write, the delete of its SEID, and an index write that uses the
SEID again for another reference. -/
def sampleOpsScaled : List (IndexOp sampleSchema) :=
  [IndexOp.write 6699 sampleContextA, IndexOp.deleteBySEID 6699,
    IndexOp.write 6699 sampleContextB]

/-- Two index writes that pair the same SEID with two references. -/
def sampleOpsReassociate : List (IndexOp sampleSchema) :=
  [IndexOp.write 1 sampleContextA, IndexOp.write 1 sampleContextB]

/-- Two index writes that pair the same reference with two SEIDs. -/
def sampleOpsReassociateRef : List (IndexOp sampleSchema) :=
  [IndexOp.write 1 sampleContextA, IndexOp.write 2 sampleContextA]

/-- An index write followed by the delete of its reference. -/
def sampleOpsDeleteByRef : List (IndexOp sampleSchema) :=
  [IndexOp.write 1 sampleContextA, IndexOp.deleteByRef "ref-a"]


/-- The scaled-mode backend after the index worker step for the pair of `sampleContext`
and SEID `0x1a2b`, followed by the context worker step for `sampleContext`. -/
def sampleIndexThenContext : Backend sampleSchema :=
  ProcessSmContextDbChannel id sampleStoredScaled sampleContext

/-- The scaled-mode backend after the context worker step for `sampleContext`, followed
by the index worker step for its pair with SEID `0x1a2b`. -/
def sampleContextThenIndex : Backend sampleSchema :=
  ProcessSeidSmContextDbChannel
    (ProcessSmContextDbChannel id (emptyBackend sampleSchema true) sampleContext)
    { Ref := "ref-1", Seid := SeidConv 6699 }

/-! # Theorems -/

/-! ## Lemmas on Go maps -/

namespace GoMap

variable {K V : Type} [DecidableEq K]

theorem find_filter (l : List (K × V)) (k k1 : K) :
    find (l.filter (fun e => !decide (e.1 = k))) k1 = if k1 = k then none else find l k1 := by
  induction l with
  | nil => simp [find]
  | cons e l ih =>
    obtain ⟨k2, v⟩ := e
    by_cases h : k2 = k
    · subst h
      by_cases h1 : k1 = k2
      · subst h1
        simpa [List.filter, find] using ih
      · have h2 : ¬ k2 = k1 := fun e => h1 e.symm
        simp [List.filter, find, ih, h1, h2]
    · by_cases h1 : k1 = k
      · subst h1
        simp [List.filter, find, ih, h]
      · simp [List.filter, find, ih, h, h1]

theorem get_del (m : GoMap K V) (k k1 : K) :
    (m.del k).get k1 = if k1 = k then none else m.get k1 := by
  simp [get, del, find_filter]

theorem get_set (m : GoMap K V) (k k1 : K) (v : V) :
    (m.set k v).get k1 = if k1 = k then some v else m.get k1 := by
  by_cases h : k1 = k
  · subst h
    simp [get, set, find]
  · have h2 : ¬ k = k1 := fun e => h e.symm
    have := get_del m k k1
    simp only [get] at this
    simp [get, set, find, h, h2, this]

theorem get_empty (k : K) : (empty : GoMap K V).get k = none := rfl

theorem del_of_get_none (m : GoMap K V) (k : K) (h : m.get k = none) : m.del k = m := by
  obtain ⟨l⟩ := m
  simp only [del, GoMap.mk.injEq, List.filter_eq_self]
  simp only [get] at h
  induction l with
  | nil => simp
  | cons e l ih =>
    obtain ⟨k2, v⟩ := e
    simp only [find] at h
    by_cases h1 : k2 = k
    · simp [h1] at h
    · simp only [h1, if_false] at h
      intro a ha
      rcases List.mem_cons.mp ha with rfl | ha
      · simpa using h1
      · exact ih h a ha

theorem mem_keys_of_find {l : List (K × V)} {k : K} {v : V} (h : find l k = some v) :
    k ∈ l.map Prod.fst := by
  induction l with
  | nil => simp [find] at h
  | cons e l ih =>
    obtain ⟨k2, v2⟩ := e
    simp only [find] at h
    by_cases h1 : k2 = k
    · simp [h1]
    · simp only [h1, if_false] at h
      simp [ih h]

theorem find_none_of_not_mem {l : List (K × V)} {k : K} (h : k ∉ l.map Prod.fst) :
    find l k = none := by
  cases hf : find l k with
  | none => rfl
  | some v => exact absurd (mem_keys_of_find hf) h

theorem WF_set (m : GoMap K V) (k : K) (v : V) (h : m.WF) : (m.set k v).WF := by
  obtain ⟨l⟩ := m
  simp only [WF, keys, set, del, List.map_cons, List.nodup_cons] at *
  constructor
  · simp
  · exact (List.filter_sublist l).map Prod.fst |>.nodup h

/-- A loop that stores `f v` under every key of `l` into `m0`. -/
theorem get_foldl_set {W : Type} (f : V → W) (l : List (K × V)) :
    ∀ (m0 : GoMap K W), (l.map Prod.fst).Nodup → ∀ k,
      (l.foldl (fun m kv => m.set kv.1 (f kv.2)) m0).get k =
        match find l k with
        | some v => some (f v)
        | none => m0.get k := by
  induction l with
  | nil => intro m0 _ k; simp [find]
  | cons e l ih =>
    intro m0 hnd k
    obtain ⟨k2, v2⟩ := e
    simp only [List.map_cons, List.nodup_cons] at hnd
    simp only [List.foldl_cons, find]
    rw [ih _ hnd.2 k]
    by_cases h1 : k2 = k
    · subst h1
      simp [find_none_of_not_mem hnd.1, get_set]
    · have h2 : ¬ k = k2 := fun e => h1 e.symm
      simp [h1, get_set, h2]

theorem WF_foldl_set {W : Type} (f : V → W) (l : List (K × V)) :
    ∀ (m0 : GoMap K W), m0.WF → (l.foldl (fun m kv => m.set kv.1 (f kv.2)) m0).WF := by
  induction l with
  | nil => intro m0 h; exact h
  | cons e l ih => intro m0 h; exact ih _ (WF_set m0 e.1 _ h)

omit [DecidableEq K] in
theorem WF_empty : (empty : GoMap K V).WF := by simp [WF, keys, empty]

end GoMap

/-! ## The base-16 conversion of SEIDs -/

theorem digitVal_digitChar (d : Nat) (hd : d < 16) : digitVal (digitChar d) = some d := by
  interval_cases d <;> decide

theorem parseLoop_digit (d n : Nat) (cs : List Char) (hd : d < 16) (hn : n < 2 ^ 60) :
    parseLoop (digitChar d :: cs) n = parseLoop cs (n * 16 + d) := by
  have h1 : ¬ (maxUint64 / 16 + 1 ≤ n) := by
    have : maxUint64 / 16 + 1 = 2 ^ 60 := by decide
    omega
  have h2 : (n * 16) % 2 ^ 64 = n * 16 := Nat.mod_eq_of_lt (by omega)
  have h3 : (n * 16 + d) % 2 ^ 64 = n * 16 + d := Nat.mod_eq_of_lt (by omega)
  have h4 : ¬ (n * 16 + d < n * 16 ∨ maxUint64 < n * 16 + d) := by
    have : maxUint64 = 2 ^ 64 - 1 := rfl
    omega
  simp only [parseLoop, digitVal_digitChar d hd, h2, h3]
  rw [if_neg (by omega), if_neg h1, if_neg h4]

theorem parseLoop_formatBits (i : Nat) :
    ∀ (u : Nat) (acc : List Char), u < 16 ^ i → u < 2 ^ 64 →
      parseLoop (formatBits i u acc) 0 = parseLoop acc u := by
  induction i with
  | zero =>
    intro u acc h _
    have : u = 0 := by simpa using h
    subst this
    rfl
  | succ i ih =>
    intro u acc h h64
    unfold formatBits
    split
    · rename_i h16
      have hdiv : u >>> 4 = u / 16 := by simp [Nat.shiftRight_eq_div_pow]
      have hmod : u &&& 15 = u % 16 := by
        have := Nat.and_pow_two_sub_one_eq_mod u 4
        simpa using this
      rw [hdiv, hmod, ih (u / 16) _ (by rw [pow_succ] at h; omega) (by omega)]
      rw [parseLoop_digit (u % 16) (u / 16) acc (by omega) (by omega)]
      congr 1
      omega
    · rw [parseLoop_digit u 0 acc (by omega) (by norm_num)]
      simp

theorem formatBits_ne_nil (i u : Nat) (acc : List Char) : formatBits (i + 1) u acc ≠ [] := by
  induction i generalizing u acc with
  | zero =>
    unfold formatBits
    split
    · simp [formatBits]
    · simp
  | succ i ih =>
    unfold formatBits
    split
    · exact ih _ _
    · simp

theorem ParseUint_SeidConv (s : Nat) (hs : s < 2 ^ 64) : ParseUint (SeidConv s) = (s, none) := by
  have hne : (String.mk (formatBits 65 s [])) ≠ "" := by
    intro h
    have h2 := congrArg String.data h
    exact formatBits_ne_nil 64 s [] h2
  unfold ParseUint SeidConv FormatUint
  rw [if_neg hne]
  have := parseLoop_formatBits 65 s [] (by
    have : (2:Nat) ^ 64 ≤ 16 ^ 65 := by norm_num
    omega) hs
  simpa [parseLoop] using this

/-- C1: for every unsigned 64-bit SEID `s`, `strconv.ParseUint(SeidConv(s), 16, 64)` returns
`s` with a nil error, and therefore `SeidConv` is injective on unsigned 64-bit values. -/
theorem C1_parse_seidConv (s : Nat) (hs : s < 2 ^ 64) :
    ParseUint (SeidConv s) = (s, none) ∧
      ∀ t : Nat, t < 2 ^ 64 → SeidConv s = SeidConv t → s = t := by
  refine ⟨ParseUint_SeidConv s hs, ?_⟩
  intro t ht h
  have h1 := ParseUint_SeidConv s hs
  have h2 := ParseUint_SeidConv t ht
  rw [h] at h1
  rw [h1] at h2
  exact (Prod.mk.inj h2).1

/-- Witness of C1 at the two extremes `0` and `2 ^ 64 - 1`. -/
theorem C1_parse_seidConv_witness :
    (0 < 2 ^ 64 ∧ ParseUint (SeidConv 0) = (0, none)) ∧
      (2 ^ 64 - 1 < 2 ^ 64 ∧
        ParseUint (SeidConv (2 ^ 64 - 1)) = (2 ^ 64 - 1, none)) :=
  ⟨⟨by decide, (C1_parse_seidConv 0 (by decide)).1⟩,
    ⟨by decide, (C1_parse_seidConv (2 ^ 64 - 1) (by decide)).1⟩⟩

/-! ## Round trip of the codec -/

theorem marshalPFCP_foldl {S : Schema} (l : List (String × PFCPSessionContext S)) :
    ∀ (scr : PFCPSessionContextInDB S) (out : GoMap String (PFCPSessionContextInDB S)),
      (l.foldl marshalPFCPStep (scr, out)).2 =
        l.foldl (fun m kv => m.set kv.1
          ({ PDRs := kv.2.PDRs, NodeID := kv.2.NodeID, LocalSEID := SeidConv kv.2.LocalSEID,
             RemoteSEID := SeidConv kv.2.RemoteSEID } : PFCPSessionContextInDB S)) out := by
  induction l with
  | nil => intro scr out; rfl
  | cons e l ih =>
    intro scr out
    simp only [List.foldl_cons]
    exact ih _ _

theorem unmarshalPFCP_foldl {S : Schema} (l : List (String × PFCPSessionContextInDB S))
    (out : GoMap String (PFCPSessionContext S)) :
    l.foldl unmarshalPFCPStep out =
      l.foldl (fun m kv => m.set kv.1
        ({ PDRs := kv.2.PDRs, NodeID := kv.2.NodeID, LocalSEID := (ParseUint kv.2.LocalSEID).1,
           RemoteSEID := (ParseUint kv.2.RemoteSEID).1 } : PFCPSessionContext S)) out := rfl

/-- C2: decoding the encoding of a session context gives a PFCPContext map with the same
keys in which every entry equals the original one: same NodeID, same PDRs, and LocalSEID
and RemoteSEID equal to the original 64-bit values. -/
theorem C2_pfcp_roundtrip {S : Schema} (StoreDataPathNode : S.DataPathNode → S.DataPathNodeInDB)
    (RecoverDataPathNode : S.DataPathNodeInDB → S.DataPathNode) (NewDataPath : DataPath S)
    (smContext : SMContext S) (hwf : smContext.PFCPContext.WF)
    (hseid : ∀ k e, smContext.PFCPContext.get k = some e →
      e.LocalSEID < 2 ^ 64 ∧ e.RemoteSEID < 2 ^ 64) :
    ∃ out, UnmarshalJSON RecoverDataPathNode NewDataPath
        (Except.ok (MarshalJSON StoreDataPathNode smContext)) = Except.ok out ∧
      ∀ k, out.PFCPContext.get k = smContext.PFCPContext.get k := by
  refine ⟨_, rfl, ?_⟩
  intro k
  simp only [MarshalJSON]
  rw [unmarshalPFCP_foldl, marshalPFCP_foldl]
  have hE := GoMap.WF_foldl_set (fun v : PFCPSessionContext S =>
      ({ PDRs := v.PDRs, NodeID := v.NodeID, LocalSEID := SeidConv v.LocalSEID,
         RemoteSEID := SeidConv v.RemoteSEID } : PFCPSessionContextInDB S))
    smContext.PFCPContext.entries GoMap.empty GoMap.WF_empty
  have hD := GoMap.get_foldl_set (fun w : PFCPSessionContextInDB S =>
      ({ PDRs := w.PDRs, NodeID := w.NodeID, LocalSEID := (ParseUint w.LocalSEID).1,
         RemoteSEID := (ParseUint w.RemoteSEID).1 } : PFCPSessionContext S))
    _ GoMap.empty hE k
  have hk := GoMap.get_foldl_set (fun v : PFCPSessionContext S =>
      ({ PDRs := v.PDRs, NodeID := v.NodeID, LocalSEID := SeidConv v.LocalSEID,
         RemoteSEID := SeidConv v.RemoteSEID } : PFCPSessionContextInDB S))
    smContext.PFCPContext.entries GoMap.empty hwf k
  rw [hD]
  simp only [GoMap.get] at hk
  rw [hk]
  have hs := hseid k
  simp only [GoMap.get] at hs ⊢
  cases hf : GoMap.find smContext.PFCPContext.entries k with
  | none => simp [GoMap.find, GoMap.empty]
  | some e =>
    obtain ⟨h1, h2⟩ := hs e hf
    simp [ParseUint_SeidConv _ h1, ParseUint_SeidConv _ h2]

/-- Witness of C2 on a context with two PFCP session contexts whose SEIDs are `0`,
`2 ^ 64 - 1` and `0x1a2b`. -/
theorem C2_pfcp_roundtrip_witness :
    ∃ out, UnmarshalJSON id sampleNewDataPath (Except.ok (MarshalJSON id sampleContext))
        = Except.ok out ∧
      ∀ k, out.PFCPContext.get k = sampleContext.PFCPContext.get k :=
  C2_pfcp_roundtrip id id sampleNewDataPath sampleContext (by decide) (by
    intro k e h
    simp only [sampleContext, samplePFCPContext, GoMap.get, GoMap.find] at h
    split_ifs at h <;> cases h <;> decide)

theorem marshalPath_foldl {S : Schema} (StoreDataPathNode : S.DataPathNode → S.DataPathNodeInDB)
    (l : List (Int × DataPath S)) (out : GoMap Int (DataPathInDB S)) :
    l.foldl (marshalPathStep StoreDataPathNode) out =
      l.foldl (fun m kv => m.set kv.1
        ({ Activated := kv.2.Activated, IsDefaultPath := kv.2.IsDefaultPath,
           Destination := kv.2.Destination, HasBranchingPoint := kv.2.HasBranchingPoint,
           FirstDPNode := StoreDataPathNode kv.2.FirstDPNode } : DataPathInDB S)) out := rfl

theorem unmarshalPath_foldl {S : Schema}
    (RecoverDataPathNode : S.DataPathNodeInDB → S.DataPathNode) (NewDataPath : DataPath S)
    (l : List (Int × DataPathInDB S)) (out : GoMap Int (DataPath S)) :
    l.foldl (unmarshalPathStep RecoverDataPathNode NewDataPath) out =
      l.foldl (fun m kv => m.set kv.1
        ({ Activated := kv.2.Activated, IsDefaultPath := kv.2.IsDefaultPath,
           Destination := kv.2.Destination, HasBranchingPoint := kv.2.HasBranchingPoint,
           FirstDPNode := RecoverDataPathNode kv.2.FirstDPNode } : DataPath S)) out := rfl

/-- C3: for a session context whose tunnel has a non-empty DataPathPool, decoding the
encoding gives a DataPathPool with the same path identifiers, in which every data path
has the original Activated, IsDefaultPath, Destination and HasBranchingPoint and a
FirstDPNode equal to `RecoverDataPathNode (StoreDataPathNode _)` of the original one; when
`RecoverDataPathNode` inverts `StoreDataPathNode` every path is the original path. -/
theorem C3_dataPathPool_roundtrip {S : Schema}
    (StoreDataPathNode : S.DataPathNode → S.DataPathNodeInDB)
    (RecoverDataPathNode : S.DataPathNodeInDB → S.DataPathNode) (NewDataPath : DataPath S)
    (smContext : SMContext S) (tunnel : UPTunnel S) (pool : GoMap Int (DataPath S))
    (htunnel : smContext.Tunnel = some tunnel) (hpool : tunnel.DataPathPool = some pool)
    (_hne : pool.entries ≠ []) (hwf : pool.WF) :
    ∃ out tunnelOut poolOut,
      UnmarshalJSON RecoverDataPathNode NewDataPath
        (Except.ok (MarshalJSON StoreDataPathNode smContext)) = Except.ok out ∧
      out.Tunnel = some tunnelOut ∧ tunnelOut.DataPathPool = some poolOut ∧
      (∀ k, poolOut.get k = (pool.get k).map (fun dp =>
        ({ Activated := dp.Activated, IsDefaultPath := dp.IsDefaultPath,
           Destination := dp.Destination, HasBranchingPoint := dp.HasBranchingPoint,
           FirstDPNode := RecoverDataPathNode (StoreDataPathNode dp.FirstDPNode) }
          : DataPath S))) ∧
      ((∀ n, RecoverDataPathNode (StoreDataPathNode n) = n) →
        ∀ k, poolOut.get k = pool.get k) := by
  have hE := GoMap.WF_foldl_set (fun v : DataPath S =>
      ({ Activated := v.Activated, IsDefaultPath := v.IsDefaultPath,
         Destination := v.Destination, HasBranchingPoint := v.HasBranchingPoint,
         FirstDPNode := StoreDataPathNode v.FirstDPNode } : DataPathInDB S))
    pool.entries GoMap.empty GoMap.WF_empty
  have hmain : ∀ k,
      ((pool.entries.foldl (marshalPathStep StoreDataPathNode) GoMap.empty).entries.foldl
        (unmarshalPathStep RecoverDataPathNode NewDataPath) (NewDataPathPool S)).get k =
      (pool.get k).map (fun dp =>
        ({ Activated := dp.Activated, IsDefaultPath := dp.IsDefaultPath,
           Destination := dp.Destination, HasBranchingPoint := dp.HasBranchingPoint,
           FirstDPNode := RecoverDataPathNode (StoreDataPathNode dp.FirstDPNode) }
          : DataPath S)) := by
    intro k
    rw [unmarshalPath_foldl, marshalPath_foldl]
    have hD := GoMap.get_foldl_set (fun w : DataPathInDB S =>
        ({ Activated := w.Activated, IsDefaultPath := w.IsDefaultPath,
           Destination := w.Destination, HasBranchingPoint := w.HasBranchingPoint,
           FirstDPNode := RecoverDataPathNode w.FirstDPNode } : DataPath S))
      _ (NewDataPathPool S) hE k
    have hk := GoMap.get_foldl_set (fun v : DataPath S =>
        ({ Activated := v.Activated, IsDefaultPath := v.IsDefaultPath,
           Destination := v.Destination, HasBranchingPoint := v.HasBranchingPoint,
           FirstDPNode := StoreDataPathNode v.FirstDPNode } : DataPathInDB S))
      pool.entries GoMap.empty hwf k
    rw [hD]
    simp only [GoMap.get] at hk
    rw [hk]
    simp only [GoMap.get]
    cases hf : GoMap.find pool.entries k with
    | none => simp [GoMap.find, GoMap.empty, NewDataPathPool]
    | some e => simp
  have hun : UnmarshalJSON RecoverDataPathNode NewDataPath
      (Except.ok (MarshalJSON StoreDataPathNode smContext)) =
      Except.ok
        { Ref := smContext.Ref
          Alias := smContext.Alias
          PFCPContext := (MarshalJSON StoreDataPathNode smContext).PFCPContext.entries.foldl
            unmarshalPFCPStep GoMap.empty
          Tunnel := some (UPTunnel.mk (some (IDGenerator.mk 1 2147483647))
            (some ((pool.entries.foldl (marshalPathStep StoreDataPathNode)
              GoMap.empty).entries.foldl (unmarshalPathStep RecoverDataPathNode NewDataPath)
                (NewDataPathPool S))) tunnel.ANInformation) } := by
    simp only [UnmarshalJSON, MarshalJSON, htunnel, hpool, UPTunnelInDB.isZero,
      Option.isNone_some, Bool.false_and]
    rfl
  refine ⟨_, _, _, hun, rfl, rfl, hmain, ?_⟩
  · intro hinv k
    rw [hmain k]
    cases hf : pool.get k with
    | none => rfl
    | some e => simp [hinv]

/-- Witness of C3 on a tunnel with two data paths, one with a chain of three nodes and
`HasBranchingPoint = true`. -/
theorem C3_dataPathPool_roundtrip_witness :
    ∃ out tunnelOut poolOut,
      UnmarshalJSON id sampleNewDataPath (Except.ok (MarshalJSON id sampleContext))
        = Except.ok out ∧
      out.Tunnel = some tunnelOut ∧ tunnelOut.DataPathPool = some poolOut ∧
      poolOut.get 1 = sampleDataPathPool.get 1 ∧ poolOut.get 2 = sampleDataPathPool.get 2 := by
  obtain ⟨out, tunnelOut, poolOut, h1, h2, h3, _, h5⟩ :=
    C3_dataPathPool_roundtrip (S := sampleSchema) id id sampleNewDataPath sampleContext
      (UPTunnel.mk (some (IDGenerator.mk 1 2147483647)) (some sampleDataPathPool) 5)
      sampleDataPathPool rfl rfl (by simp [sampleDataPathPool]) (by decide)
  exact ⟨out, tunnelOut, poolOut, h1, h2, h3, h5 (fun _ => rfl) 1, h5 (fun _ => rfl) 2⟩

/-- C4, as the code has it: for a session context whose Tunnel is nil, `MarshalJSON`
emits the zero `UPTunnelInDB` record, and `UnmarshalJSON` of that record skips the
reconstruction of the tunnel; the decoded context holds the tunnel object allocated
before the test, with all fields zero: no PathIDGenerator, a nil DataPathPool and zero
ANInformation. -/
theorem C4_nil_tunnel_decodes_to_empty_tunnel {S : Schema}
    (StoreDataPathNode : S.DataPathNode → S.DataPathNodeInDB)
    (RecoverDataPathNode : S.DataPathNodeInDB → S.DataPathNode) (NewDataPath : DataPath S)
    (smContext : SMContext S) (htunnel : smContext.Tunnel = none) :
    (MarshalJSON StoreDataPathNode smContext).Tunnel = UPTunnelInDB.zero S ∧
      ∃ out, UnmarshalJSON RecoverDataPathNode NewDataPath
          (Except.ok (MarshalJSON StoreDataPathNode smContext)) = Except.ok out ∧
        out.Tunnel = some (UPTunnel.zero S) := by
  have hz : (MarshalJSON StoreDataPathNode smContext).Tunnel = UPTunnelInDB.zero S := by
    simp only [MarshalJSON, htunnel]
  refine ⟨hz, _, rfl, ?_⟩
  simp only [hz, UPTunnelInDB.isZero, UPTunnelInDB.zero, Option.isNone_none, Bool.true_and,
    decide_True, if_true]

/-- Witness of C4 on a context without tunnel. -/
theorem C4_nil_tunnel_decodes_to_empty_tunnel_witness :
    sampleContextNoTunnel.Tunnel = none ∧
      (MarshalJSON id sampleContextNoTunnel).Tunnel = UPTunnelInDB.zero sampleSchema ∧
      ∃ out, UnmarshalJSON id sampleNewDataPath
          (Except.ok (MarshalJSON id sampleContextNoTunnel)) = Except.ok out ∧
        out.Tunnel = some (UPTunnel.zero sampleSchema) :=
  ⟨rfl, C4_nil_tunnel_decodes_to_empty_tunnel id id sampleNewDataPath sampleContextNoTunnel rfl⟩

/-- Counterexample to C4 as stated: the context has a nil Tunnel, and the context decoded
from its encoding has a Tunnel that is not nil. -/
theorem C4_decoded_tunnel_not_nil :
    sampleContextNoTunnel.Tunnel = none ∧
      ∃ out, UnmarshalJSON id sampleNewDataPath
          (Except.ok (MarshalJSON id sampleContextNoTunnel)) = Except.ok out ∧
        out.Tunnel ≠ none :=
  ⟨rfl, _, rfl, by simp [UnmarshalJSON]⟩

/-- C5, evaluated on the code: a stored record whose LocalSEID is `zz` (not base 16)
and whose RemoteSEID is `2 ^ 64` in base 16 (out of range) does not parse, and yet
`UnmarshalJSON` returns a nil error with a context that carries the substituted SEIDs
`0` and `2 ^ 64 - 1`. -/
theorem C5_unparsable_seid_is_accepted :
    (ParseUint "zz").2 = some NumError.ErrSyntax ∧
      (ParseUint "10000000000000000").2 = some NumError.ErrRange ∧
      ∃ out, UnmarshalJSON id sampleNewDataPath (Except.ok sampleBadRecord) = Except.ok out ∧
        (out.PFCPContext.get "upf-a").map (fun e => (e.LocalSEID, e.RemoteSEID))
          = some (0, 2 ^ 64 - 1) :=
  ⟨by decide, by decide, _, rfl, by decide⟩

/-! ## The identifier index and the context store -/

/-- C6: on working backends, after the index write for a reference `r` (the reference of
the context) and an unsigned 64-bit SEID `s` — `StoreSeidContextInDB` and
`StoreRefToSeidInDB` in local mode, one iteration of `ProcessSeidSmContextDbChannel` in
scaled mode — `GetSeidByRefInDB(r)` returns `(s, nil)` and the resolution of
`GetSMContextBySEIDInDB(s)` hands `r` to `GetSMContext`. -/
theorem C6_index_write_then_lookup {S : Schema} (b : Backend S) (s : Nat)
    (smContext : SMContext S) (hs : s < 2 ^ 64) (hredis : b.RedisClient.fault = none)
    (hmongo : b.CommonDBClient.fault = none) :
    (b.EnableScaling = false →
      GetSeidByRefInDB
          (StoreRefToSeidInDB (StoreSeidContextInDB b s smContext) s smContext)
          smContext.Ref = SeidResult.returned s none ∧
        ∀ (C : Type) (GetSMContext : String → Option C),
          GetSMContextBySEIDInDB GetSMContext
            (StoreRefToSeidInDB (StoreSeidContextInDB b s smContext) s smContext) s
            = GetSMContext smContext.Ref) ∧
    (b.EnableScaling = true →
      GetSeidByRefInDB
          (ProcessSeidSmContextDbChannel b { Ref := smContext.Ref, Seid := SeidConv s })
          smContext.Ref = SeidResult.returned s none ∧
        ∀ (C : Type) (GetSMContext : String → Option C),
          GetSMContextBySEIDInDB GetSMContext
            (ProcessSeidSmContextDbChannel b { Ref := smContext.Ref, Seid := SeidConv s }) s
            = GetSMContext smContext.Ref) := by
  refine ⟨fun hsc => ⟨?_, fun C G => ?_⟩, fun hsc => ⟨?_, fun C G => ?_⟩⟩
  · simp [GetSeidByRefInDB, StoreRefToSeidInDB, StoreSeidContextInDB, RestfulAPIGetOne,
      RestfulAPIPost, hsc, hmongo, GoMap.get_set, ParseUint_SeidConv s hs]
  · simp [GetSMContextBySEIDInDB, StoreRefToSeidInDB, StoreSeidContextInDB, RestfulAPIGetOne,
      RestfulAPIPost, hsc, hmongo, GoMap.get_set]
  · simp [GetSeidByRefInDB, ProcessSeidSmContextDbChannel, RedisDB.Get, RedisDB.Set, hsc,
      hredis, GoMap.get_set, RedisValue.toSeidSmContextRef, ParseUint_SeidConv s hs]
  · by_cases hk : SeidConv s = smContext.Ref <;>
      simp [GetSMContextBySEIDInDB, ProcessSeidSmContextDbChannel, RedisDB.Get, RedisDB.Set,
        hsc, hredis, GoMap.get_set, RedisValue.toSeidSmContextRef, hk]

/-- Witness of C6 at the reference `ref-1` and the SEID `2 ^ 64 - 1`, from empty working
backends of both modes. -/
theorem C6_index_write_then_lookup_witness :
    GetSeidByRefInDB
        (StoreRefToSeidInDB
          (StoreSeidContextInDB (emptyBackend sampleSchema false) (2 ^ 64 - 1) sampleContext)
          (2 ^ 64 - 1) sampleContext)
        "ref-1" = SeidResult.returned (2 ^ 64 - 1) none ∧
      GetSeidByRefInDB
        (ProcessSeidSmContextDbChannel (emptyBackend sampleSchema true)
          { Ref := "ref-1", Seid := SeidConv (2 ^ 64 - 1) })
        "ref-1" = SeidResult.returned (2 ^ 64 - 1) none :=
  ⟨((C6_index_write_then_lookup (emptyBackend sampleSchema false) (2 ^ 64 - 1) sampleContext
      (by decide) rfl rfl).1 rfl).1,
    ((C6_index_write_then_lookup (emptyBackend sampleSchema true) (2 ^ 64 - 1) sampleContext
      (by decide) rfl rfl).2 rfl).1⟩

/-- C7, evaluated on the code in local mode: when the lookup in the database fails,
`GetSeidByRefInDB` returns the SEID `0` together with a nil error; when the database holds
no index entry for the reference, the call panics instead of returning an error. -/
theorem C7_failed_lookup_returns_nil_error :
    sampleFailingBackend.EnableScaling = false ∧
      sampleFailingBackend.CommonDBClient.fault = some "connection refused" ∧
      GetSeidByRefInDB sampleFailingBackend "ref-1" = SeidResult.returned 0 none ∧
      GetSeidByRefInDB (emptyBackend sampleSchema false) "ref-1" = SeidResult.panicked :=
  ⟨rfl, rfl, by decide, by decide⟩

/-- C8, evaluated on the code in local mode: the context `ref-1` is stored with its index
pair for SEID `0x1a2b`; after `DeleteSmContextInDBBySEID(0x1a2b)` the context record and
the by-SEID entry are gone, and the by-reference entry is still there:
`GetSeidByRefInDB("ref-1")` returns `(0x1a2b, nil)`. -/
theorem C8_local_delete_keeps_ref_entry :
    GetSMContextBySEIDInDB some sampleStoredLocal 6699 = some "ref-1" ∧
      (DeleteSmContextInDBBySEID sampleStoredLocal 6699).hasContextRecord "ref-1" = false ∧
      (DeleteSmContextInDBBySEID sampleStoredLocal 6699).hasSeidEntry 6699 = false ∧
      (DeleteSmContextInDBBySEID sampleStoredLocal 6699).hasRefEntry "ref-1" = true ∧
      GetSeidByRefInDB (DeleteSmContextInDBBySEID sampleStoredLocal 6699) "ref-1"
        = SeidResult.returned 6699 none :=
  ⟨by decide, by decide, by decide, by decide, by decide⟩

theorem RedisDB.Del_of_absent {S : Schema} (c : RedisDB S) (key : String)
    (h : c.data.get key = none) : c.Del key = c := by
  obtain ⟨data, fault⟩ := c
  cases fault with
  | none => simp only [RedisDB.Del, GoMap.del_of_get_none data key h]
  | some msg => rfl

theorem RestfulAPIDeleteOne_of_absent {D : Type} (fault : Option String)
    (coll : GoMap String D) (key : String) (h : coll.get key = none) :
    RestfulAPIDeleteOne fault coll key = coll := by
  cases fault with
  | none => simp only [RestfulAPIDeleteOne, GoMap.del_of_get_none coll key h]
  | some msg => rfl

/-- C9: on every backend state, `DeleteSmContextInDBByRef(r)` with no record stored under
`r` and `DeleteSmContextInDBBySEID(s)` with no index entry stored under `s` return and
leave the whole state as it was. -/
theorem C9_delete_of_absent_key {S : Schema} (b : Backend S) (r : String) (s : Nat) :
    (b.hasContextRecord r = false → DeleteSmContextInDBByRef b r = b) ∧
      (b.hasSeidEntry s = false → DeleteSmContextInDBBySEID b s = b) := by
  obtain ⟨scaling, redis, mongo⟩ := b
  constructor
  · intro h
    cases scaling with
    | true =>
      have h1 : redis.data.get r = none := by simpa [Backend.hasContextRecord] using h
      simp [DeleteSmContextInDBByRef, RedisDB.Del_of_absent redis r h1]
    | false =>
      have h1 : mongo.SmContextDataColl.get r = none := by
        simpa [Backend.hasContextRecord] using h
      simp [DeleteSmContextInDBByRef, RestfulAPIDeleteOne_of_absent _ _ r h1]
  · intro h
    cases scaling with
    | true =>
      have h1 : redis.data.get (SeidConv s) = none := by simpa [Backend.hasSeidEntry] using h
      cases hf : redis.fault <;> simp [DeleteSmContextInDBBySEID, RedisDB.Get, h1, hf]
    | false =>
      have h1 : mongo.SeidSmContextCol.get (SeidConv s) = none := by
        simpa [Backend.hasSeidEntry] using h
      cases hf : mongo.fault <;> simp [DeleteSmContextInDBBySEID, RestfulAPIGetOne, h1, hf]

/-- Witness of C9: in a local-mode backend that holds the context `ref-1` and its index
pair for SEID `0x1a2b`, and in a scaled-mode backend that holds that index pair, deleting
the absent reference `ref-9` and the absent SEID `5` changes nothing. -/
theorem C9_delete_of_absent_key_witness :
    ((sampleStoredLocal.hasContextRecord "ref-9" = false ∧
        DeleteSmContextInDBByRef sampleStoredLocal "ref-9" = sampleStoredLocal) ∧
      (sampleStoredLocal.hasSeidEntry 5 = false ∧
        DeleteSmContextInDBBySEID sampleStoredLocal 5 = sampleStoredLocal)) ∧
    ((sampleStoredScaled.hasContextRecord "ref-9" = false ∧
        DeleteSmContextInDBByRef sampleStoredScaled "ref-9" = sampleStoredScaled) ∧
      (sampleStoredScaled.hasSeidEntry 5 = false ∧
        DeleteSmContextInDBBySEID sampleStoredScaled 5 = sampleStoredScaled)) :=
  ⟨⟨⟨by decide, (C9_delete_of_absent_key sampleStoredLocal "ref-9" 5).1 (by decide)⟩,
      ⟨by decide, (C9_delete_of_absent_key sampleStoredLocal "ref-9" 5).2 (by decide)⟩⟩,
    ⟨⟨by decide, (C9_delete_of_absent_key sampleStoredScaled "ref-9" 5).1 (by decide)⟩,
      ⟨by decide, (C9_delete_of_absent_key sampleStoredScaled "ref-9" 5).2 (by decide)⟩⟩⟩

/-! ## Consistency of the two index directions -/

theorem isSeidKey_SeidConv (s : Nat) (hs : s < 2 ^ 64) : isSeidKey (SeidConv s) = true := by
  simp [isSeidKey, ParseUint_SeidConv s hs]

theorem SeidConv_of_isSeidKey {key : String} {s : Nat} (h : isSeidKey key = true)
    (hp : ParseUint key = (s, none)) : SeidConv s = key := by
  simp only [isSeidKey, decide_eq_true_eq] at h
  rw [hp] at h
  exact h.2

theorem ne_of_isSeidKey {k1 k2 : String} (h1 : isSeidKey k1 = true)
    (h2 : isSeidKey k2 = false) : k1 ≠ k2 := by
  intro h
  rw [h, h2] at h1
  exact Bool.noConfusion h1

theorem IndexInv_empty (S : Schema) (scaling : Bool) : IndexInv (emptyBackend S scaling) := by
  cases scaling with
  | true =>
    refine ⟨rfl, ?_⟩
    intro k v h
    simp [emptyBackend, GoMap.get, GoMap.empty, GoMap.find] at h
  | false =>
    refine ⟨rfl, ?_, ?_⟩ <;>
    · intro k v h
      simp [emptyBackend, GoMap.get, GoMap.empty, GoMap.find] at h

theorem IndexInvLocal_write {S : Schema} (m : MongoDB S) (s : Nat) (r : String)
    (hinv : IndexInvLocal m) (hs : s < 2 ^ 64)
    (hfs : m.SeidSmContextCol.get (SeidConv s) = none) (hfr : m.RefSeidCol.get r = none) :
    IndexInvLocal
      (MongoDB.mk m.SmContextDataColl
        (m.SeidSmContextCol.set (SeidConv s) (SeidSmContextRef.mk r (SeidConv s)))
        (m.RefSeidCol.set r (SeidSmContextRef.mk r (SeidConv s))) m.fault) := by
  obtain ⟨hf, h1, h2⟩ := hinv
  refine ⟨hf, ?_, ?_⟩
  · intro k doc hk
    simp only [GoMap.get_set] at hk ⊢
    by_cases hks : k = SeidConv s
    · subst hks
      simp only [if_true, Option.some.injEq] at hk
      subst hk
      exact ⟨rfl, isSeidKey_SeidConv s hs, by simp⟩
    · simp only [hks, if_false] at hk
      obtain ⟨ha, hb, hc⟩ := h1 k doc hk
      refine ⟨ha, hb, ?_⟩
      by_cases hr : doc.Ref = r
      · rw [hr, hfr] at hc
        exact Option.noConfusion hc
      · simp [hr, hc]
  · intro k doc hk
    simp only [GoMap.get_set] at hk ⊢
    by_cases hkr : k = r
    · subst hkr
      simp only [if_true, Option.some.injEq] at hk
      subst hk
      exact ⟨rfl, by simp⟩
    · simp only [hkr, if_false] at hk
      obtain ⟨ha, hc⟩ := h2 k doc hk
      refine ⟨ha, ?_⟩
      by_cases hr : doc.Seid = SeidConv s
      · rw [hr, hfs] at hc
        exact Option.noConfusion hc
      · simp [hr, hc]

theorem IndexInvScaled_write {S : Schema} (c : RedisDB S) (s : Nat) (r : String)
    (hinv : IndexInvScaled c) (hs : s < 2 ^ 64)
    (hfs : c.data.get (SeidConv s) = none) (hfr : c.data.get r = none)
    (hr : isSeidKey r = false) :
    IndexInvScaled
      (RedisDB.mk
        ((c.data.set (SeidConv s) (RedisValue.seidRef (SeidSmContextRef.mk r (SeidConv s)))).set
          r (RedisValue.seidRef (SeidSmContextRef.mk r (SeidConv s))))
        c.fault) := by
  obtain ⟨hf, hJ⟩ := hinv
  refine ⟨hf, ?_⟩
  intro k v hk
  simp only [GoMap.get_set] at hk ⊢
  have hkey := isSeidKey_SeidConv s hs
  by_cases hkr : k = r
  · simp only [hkr, if_true, Option.some.injEq] at hk
    subst hk
    refine ⟨_, rfl, Or.inr hkr, hkey, hr, ?_, ?_⟩
    · by_cases h : SeidConv s = r <;> simp [h]
    · simp
  · by_cases hks : k = SeidConv s
    · subst hks
      simp only [hkr, if_true, if_false, Option.some.injEq] at hk
      subst hk
      refine ⟨_, rfl, Or.inl rfl, hkey, hr, ?_, ?_⟩
      · by_cases h : SeidConv s = r <;> simp [h]
      · simp
    · simp only [hkr, hks, if_false] at hk
      obtain ⟨item, hv, hor, hi1, hi2, hg1, hg2⟩ := hJ k v hk
      refine ⟨item, hv, hor, hi1, hi2, ?_, ?_⟩
      · have n1 : item.Seid ≠ r := ne_of_isSeidKey hi1 hr
        have n2 : item.Seid ≠ SeidConv s := by
          intro h
          rw [h, hfs] at hg1
          exact Option.noConfusion hg1
        simp [n1, n2, hg1]
      · have n1 : item.Ref ≠ r := by
          intro h
          rw [h, hfr] at hg2
          exact Option.noConfusion hg2
        have n2 : item.Ref ≠ SeidConv s := (ne_of_isSeidKey hkey hi2).symm
        simp [n1, n2, hg2]

theorem IndexInvScaled_delete {S : Schema} (c : RedisDB S) (s : Nat) (v : RedisValue S)
    (hinv : IndexInvScaled c) (hs : s < 2 ^ 64) (hget : c.data.get (SeidConv s) = some v) :
    IndexInvScaled
      (RedisDB.mk ((c.data.del (SeidConv s)).del v.toSeidSmContextRef.Ref) c.fault) := by
  obtain ⟨hf, hJ⟩ := hinv
  refine ⟨hf, ?_⟩
  have hkey := isSeidKey_SeidConv s hs
  obtain ⟨item0, hv0, hor0, hi01, hi02, hg01, hg02⟩ := hJ _ v hget
  have hseid0 : SeidConv s = item0.Seid := by
    rcases hor0 with h | h
    · exact h
    · exact absurd h (ne_of_isSeidKey hkey hi02)
  subst hv0
  simp only [RedisValue.toSeidSmContextRef]
  intro k w hk
  simp only [GoMap.get_del] at hk ⊢
  by_cases hkr : k = item0.Ref
  · simp [hkr] at hk
  · by_cases hks : k = SeidConv s
    · simp [hkr, hks] at hk
    · simp only [hkr, hks, if_false] at hk
      obtain ⟨item, hv, hor, hi1, hi2, hg1, hg2⟩ := hJ k w hk
      have hne : w ≠ RedisValue.seidRef item0 := by
        intro h
        rw [h] at hv
        have hitem : item0 = item := by injection hv
        subst hitem
        rcases hor with h1 | h1
        · exact hks (by rw [h1, hseid0])
        · exact hkr h1
      refine ⟨item, hv, hor, hi1, hi2, ?_, ?_⟩
      · have n1 : item.Seid ≠ item0.Ref := ne_of_isSeidKey hi1 hi02
        have n2 : item.Seid ≠ SeidConv s := by
          intro h
          rw [h, hget] at hg1
          exact hne (Option.some.inj hg1).symm
        simp [n1, n2, hg1]
      · have n1 : item.Ref ≠ item0.Ref := by
          intro h
          rw [h, hg02] at hg2
          exact hne (Option.some.inj hg2).symm
        have n2 : item.Ref ≠ SeidConv s := (ne_of_isSeidKey hkey hi2).symm
        simp [n1, n2, hg2]

theorem eq_none_of_isSome_false {α : Type} {o : Option α} (h : o.isSome = false) :
    o = none := by
  cases o with
  | none => rfl
  | some a => simp at h

theorem IndexInv_apply {S : Schema} (b : Backend S) (op : IndexOp S) (hinv : IndexInv b)
    (hfresh : op.fresh b = true) :
    IndexInv (op.apply b) ∧ (op.apply b).EnableScaling = b.EnableScaling := by
  obtain ⟨scaling, redis, mongo⟩ := b
  cases op with
  | write s ctx =>
    cases scaling with
    | false =>
      simp only [IndexInv, Bool.false_eq_true, if_false] at hinv
      simp only [IndexOp.fresh, Backend.hasSeidEntry, Backend.hasRefEntry, Bool.false_eq_true,
        if_false, Bool.and_eq_true, decide_eq_true_eq, Bool.not_eq_true', Bool.not_false,
        Bool.true_or, and_true]
        at hfresh
      obtain ⟨⟨hs, hfs⟩, hfr⟩ := hfresh
      have hf := hinv.1
      have := IndexInvLocal_write mongo s ctx.Ref hinv hs
        (eq_none_of_isSome_false hfs) (eq_none_of_isSome_false hfr)
      simpa [IndexInv, IndexOp.apply, StoreRefToSeidInDB, StoreSeidContextInDB, RestfulAPIPost,
        hf] using this
    | true =>
      simp only [IndexInv, if_true] at hinv
      simp only [IndexOp.fresh, Backend.hasSeidEntry, Backend.hasRefEntry,
        if_true, Bool.and_eq_true, decide_eq_true_eq, Bool.not_eq_true', Bool.not_true,
        Bool.false_or]
        at hfresh
      obtain ⟨⟨⟨hs, hfs⟩, hfr⟩, hr⟩ := hfresh
      have hf := hinv.1
      have := IndexInvScaled_write redis s ctx.Ref hinv hs
        (eq_none_of_isSome_false hfs) (eq_none_of_isSome_false hfr) hr
      simpa [IndexInv, IndexOp.apply, ProcessSeidSmContextDbChannel, RedisDB.Set, hf] using this
  | deleteBySEID s =>
    cases scaling with
    | false => simp [IndexOp.fresh] at hfresh
    | true =>
      simp only [IndexInv, if_true] at hinv
      simp only [IndexOp.fresh, Bool.true_and, decide_eq_true_eq] at hfresh
      have hf := hinv.1
      cases hget : redis.data.get (SeidConv s) with
      | none =>
        simpa [IndexInv, IndexOp.apply, DeleteSmContextInDBBySEID, RedisDB.Get, hf, hget]
          using hinv
      | some v =>
        have := IndexInvScaled_delete redis s v hinv hfresh hget
        simpa [IndexInv, IndexOp.apply, DeleteSmContextInDBBySEID, DeleteSmContextInDBByRef,
          RedisDB.Get, RedisDB.Del, hf, hget] using this
  | deleteByRef r =>
    cases scaling with
    | true => simp [IndexOp.fresh] at hfresh
    | false =>
      simp only [IndexInv, Bool.false_eq_true, if_false] at hinv
      obtain ⟨hf, h1, h2⟩ := hinv
      refine ⟨?_, by simp [IndexOp.apply, DeleteSmContextInDBByRef]⟩
      simp only [IndexInv, IndexOp.apply, DeleteSmContextInDBByRef, Bool.false_eq_true, if_false]
      exact ⟨hf, h1, h2⟩

theorem IndexInv_runOps {S : Schema} (ops : List (IndexOp S)) :
    ∀ b : Backend S, IndexInv b → freshOps b ops = true →
      IndexInv (runOps b ops) ∧ (runOps b ops).EnableScaling = b.EnableScaling := by
  induction ops with
  | nil => intro b h _; exact ⟨h, rfl⟩
  | cons op ops ih =>
    intro b h hfresh
    simp only [freshOps, Bool.and_eq_true] at hfresh
    obtain ⟨h1, h2⟩ := IndexInv_apply b op h hfresh.1
    obtain ⟨h3, h4⟩ := ih (op.apply b) h1 hfresh.2
    exact ⟨h3, h4.trans h2⟩

theorem index_iff_local {S : Schema} (b : Backend S) (r : String) (s : Nat)
    (hinv : IndexInvLocal b.CommonDBClient) (hsc : b.EnableScaling = false)
    (hs : s < 2 ^ 64) :
    GetSMContextBySEIDInDB some b s = some r ↔
      GetSeidByRefInDB b r = SeidResult.returned s none := by
  obtain ⟨hf, h1, h2⟩ := hinv
  simp only [GetSMContextBySEIDInDB, GetSeidByRefInDB, hsc, Bool.false_eq_true, if_false,
    RestfulAPIGetOne, hf]
  constructor
  · intro h
    cases hg : b.CommonDBClient.SeidSmContextCol.get (SeidConv s) with
    | none => simp [hg] at h
    | some doc =>
      simp only [hg, Option.some.injEq] at h
      obtain ⟨ha, _, hc⟩ := h1 _ doc hg
      rw [h] at hc
      simp [hc, ha, ParseUint_SeidConv s hs]
  · intro h
    cases hg : b.CommonDBClient.RefSeidCol.get r with
    | none => simp [hg] at h
    | some doc =>
      simp only [hg] at h
      obtain ⟨ha, hc⟩ := h2 _ doc hg
      obtain ⟨_, hkey, _⟩ := h1 _ doc hc
      have hp : ParseUint doc.Seid = (s, none) := by
        cases hq : ParseUint doc.Seid with
        | mk n e =>
          rw [hq] at h
          cases e with
          | none => simpa using h
          | some e => simp at h
      rw [SeidConv_of_isSeidKey hkey hp, hc]
      simp [ha]

theorem index_iff_scaled {S : Schema} (b : Backend S) (r : String) (s : Nat)
    (hinv : IndexInvScaled b.RedisClient) (hsc : b.EnableScaling = true)
    (hs : s < 2 ^ 64) (hr : isSeidKey r = false) :
    GetSMContextBySEIDInDB some b s = some r ↔
      GetSeidByRefInDB b r = SeidResult.returned s none := by
  obtain ⟨hf, hJ⟩ := hinv
  have hkey := isSeidKey_SeidConv s hs
  simp only [GetSMContextBySEIDInDB, GetSeidByRefInDB, hsc, if_true, RedisDB.Get, hf]
  constructor
  · intro h
    cases hg : b.RedisClient.data.get (SeidConv s) with
    | none => simp [hg] at h
    | some v =>
      simp only [hg, Option.some.injEq] at h
      obtain ⟨item, hv, hor, hi1, hi2, hg1, hg2⟩ := hJ _ v hg
      subst hv
      simp only [RedisValue.toSeidSmContextRef] at h
      have hseid : SeidConv s = item.Seid := by
        rcases hor with h3 | h3
        · exact h3
        · exact absurd h3 (ne_of_isSeidKey hkey hi2)
      rw [h] at hg2
      simp [hg2, RedisValue.toSeidSmContextRef, ← hseid, ParseUint_SeidConv s hs]
  · intro h
    cases hg : b.RedisClient.data.get r with
    | none => simp [hg] at h
    | some v =>
      simp only [hg] at h
      obtain ⟨item, hv, hor, hi1, hi2, hg1, hg2⟩ := hJ _ v hg
      subst hv
      simp only [RedisValue.toSeidSmContextRef] at h
      have href : r = item.Ref := by
        rcases hor with h3 | h3
        · exact absurd h3.symm (ne_of_isSeidKey hi1 hr)
        · exact h3
      have hp : ParseUint item.Seid = (s, none) := by
        cases hq : ParseUint item.Seid with
        | mk n e =>
          rw [hq] at h
          cases e with
          | none => simpa using h
          | some e => simp at h
      rw [SeidConv_of_isSeidKey hi1 hp, hg1]
      simp [RedisValue.toSeidSmContextRef, href]

/-- C10, as the code has it: starting from an empty backend, after every finite sequence
of index writes that each pair an unsigned 64-bit SEID and a reference which both have no
index entry yet (in scaled mode the reference is not the base-16 form of a SEID), of
`DeleteSmContextInDBBySEID` in scaled mode and of `DeleteSmContextInDBByRef` in local
mode, the by-SEID entry for `s` names the reference `r` if and only if the by-reference
entry for `r` names the SEID `s` (in scaled mode for the references `r` that are not the
base-16 form of a SEID). -/
theorem C10_index_directions_consistent {S : Schema} (scaling : Bool)
    (ops : List (IndexOp S)) (hfresh : freshOps (emptyBackend S scaling) ops = true)
    (r : String) (s : Nat) (hs : s < 2 ^ 64) (hr : scaling = true → isSeidKey r = false) :
    GetSMContextBySEIDInDB some (runOps (emptyBackend S scaling) ops) s = some r ↔
      GetSeidByRefInDB (runOps (emptyBackend S scaling) ops) r = SeidResult.returned s none := by
  obtain ⟨hinv, hmode⟩ := IndexInv_runOps ops _ (IndexInv_empty S scaling) hfresh
  have hmode2 : (runOps (emptyBackend S scaling) ops).EnableScaling = scaling := hmode
  cases scaling with
  | false =>
    simp only [IndexInv, hmode2, Bool.false_eq_true, if_false] at hinv
    exact index_iff_local _ r s hinv hmode2 hs
  | true =>
    simp only [IndexInv, hmode2, if_true] at hinv
    exact index_iff_scaled _ r s hinv hmode2 hs (hr rfl)

/-- Witness of C10: in local mode after two fresh index writes and a delete by reference,
and in scaled mode after an index write, the delete of its SEID and a second write of that
SEID. -/
theorem C10_index_directions_consistent_witness :
    (freshOps (emptyBackend sampleSchema false) sampleOpsLocal = true ∧
      (GetSMContextBySEIDInDB some (runOps (emptyBackend sampleSchema false) sampleOpsLocal)
          6699 = some "ref-a" ↔
        GetSeidByRefInDB (runOps (emptyBackend sampleSchema false) sampleOpsLocal) "ref-a"
          = SeidResult.returned 6699 none)) ∧
    (freshOps (emptyBackend sampleSchema true) sampleOpsScaled = true ∧
      isSeidKey "ref-b" = false ∧
      (GetSMContextBySEIDInDB some (runOps (emptyBackend sampleSchema true) sampleOpsScaled)
          6699 = some "ref-b" ↔
        GetSeidByRefInDB (runOps (emptyBackend sampleSchema true) sampleOpsScaled) "ref-b"
          = SeidResult.returned 6699 none)) :=
  ⟨⟨by decide,
      C10_index_directions_consistent false sampleOpsLocal (by decide) "ref-a" 6699
        (by decide) (fun h => Bool.noConfusion h)⟩,
    ⟨by decide, by decide,
      C10_index_directions_consistent true sampleOpsScaled (by decide) "ref-b" 6699
        (by decide) (fun _ => by decide)⟩⟩

/-- Counterexample to C10 as stated. In local mode, after the index writes for
(`ref-a`, 1) and (`ref-b`, 1) the by-reference entry for `ref-a` names SEID 1 while the
by-SEID entry for 1 names `ref-b`; after the index writes for (`ref-a`, 1) and
(`ref-a`, 2) the by-SEID entry for 1 names `ref-a` while the by-reference entry for
`ref-a` names SEID 2. In scaled mode, after the index write for (`ref-a`, 1)
and `DeleteSmContextInDBByRef("ref-a")` the by-SEID entry for 1 still names `ref-a` while
the by-reference entry is gone. In scaled mode, after the index write for (`ff`, 1) the
entry under the key `ff` makes the by-SEID entry for 255 name `ff`, while the by-reference
entry for `ff` names SEID 1. -/
theorem C10_index_directions_diverge :
    ¬ (GetSMContextBySEIDInDB some
          (runOps (emptyBackend sampleSchema false) sampleOpsReassociate) 1 = some "ref-a" ↔
        GetSeidByRefInDB (runOps (emptyBackend sampleSchema false) sampleOpsReassociate)
          "ref-a" = SeidResult.returned 1 none) ∧
    ¬ (GetSMContextBySEIDInDB some
          (runOps (emptyBackend sampleSchema false) sampleOpsReassociateRef) 1 = some "ref-a" ↔
        GetSeidByRefInDB (runOps (emptyBackend sampleSchema false) sampleOpsReassociateRef)
          "ref-a" = SeidResult.returned 1 none) ∧
    ¬ (GetSMContextBySEIDInDB some
          (runOps (emptyBackend sampleSchema true) sampleOpsDeleteByRef) 1 = some "ref-a" ↔
        GetSeidByRefInDB (runOps (emptyBackend sampleSchema true) sampleOpsDeleteByRef)
          "ref-a" = SeidResult.returned 1 none) ∧
    ¬ (GetSMContextBySEIDInDB some
          (runOps (emptyBackend sampleSchema true) [IndexOp.write 1 sampleContextHex]) 255
            = some "ff" ↔
        GetSeidByRefInDB
          (runOps (emptyBackend sampleSchema true) [IndexOp.write 1 sampleContextHex]) "ff"
            = SeidResult.returned 255 none) :=
  ⟨by decide, by decide, by decide, by decide⟩

/-! ## The context record and the index record in the cache -/

/-- C11, evaluated on the code in scaled mode, for the context `ref-1` and the SEID
`0x1a2b`: both workers write under the key `ref-1`, so the later write replaces the
earlier one. After the index step followed by the context step, the context is read back
with its PFCP entry `upf-a` and `GetSeidByRefInDB("ref-1")` returns SEID `0` with the
syntax error of parsing an empty string. After the context step followed by the index
step, `GetSeidByRefInDB("ref-1")` returns `(0x1a2b, nil)` and `GetSMContextByRefInDB`
decodes the index record: a context without the PFCP entry `upf-a` that the record written
for the context decodes to, and without a data-path pool. -/
theorem C11_context_and_index_share_key :
    GetSeidByRefInDB sampleIndexThenContext "ref-1"
        = SeidResult.returned 0 (some (GoError.num NumError.ErrSyntax)) ∧
      (GetSMContextByRefInDB id sampleNewDataPath sampleIndexThenContext "ref-1").map
          (fun c => (c.PFCPContext.get "upf-a").map (fun e => e.RemoteSEID))
        = some (some (2 ^ 64 - 1)) ∧
      GetSeidByRefInDB sampleContextThenIndex "ref-1" = SeidResult.returned 6699 none ∧
      (GetSMContextByRefInDB id sampleNewDataPath sampleContextThenIndex "ref-1").map
          (fun c => ((c.PFCPContext.get "upf-a").isSome,
            c.Tunnel.map (fun t => t.DataPathPool.isSome)))
        = some (false, some false) ∧
      (UnmarshalJSON id sampleNewDataPath (Except.ok (MarshalJSON id sampleContext))).toOption.map
          (fun c => ((c.PFCPContext.get "upf-a").isSome,
            c.Tunnel.map (fun t => t.DataPathPool.isSome)))
        = some (true, some true) :=
  ⟨by decide, by decide, by decide, by decide, by decide⟩

end Smf
